import Mathlib

/-!
Verification of the Benevity impact-story pipeline (`backend/app/service/ai_service.py`).

We shallowly embed the pure parts of the service:
  * `_extract_json` (structured-output repair) as `extractJson`, built from the
    four stages the Python code applies: fence stripping (`fenceSub`), Python
    `str.strip` (`pyStrip`), greedy brace extraction (`braceExtract`),
    backslash-quote normalization (`fixEscapes`), and the single-key unwrap
    backed by a JSON parser (`loads`, modelling `json.loads` restricted to
    integer numerals) and printer (`jsonDump`, modelling `json.dumps`).
  * the pydantic `ValidationOutput` schema as `voValidate`.
  * the event-stream scan and result shaping of `generate_impact_story`
    as `scanFinalText` / `generateImpactStory`.
  * the orchestrator's instructed rewrite loop as `orchestratorCalls`.

Recursive text processors take an explicit fuel argument (always called with
fuel at least the input length) so that they are structurally recursive and
evaluate by kernel reduction.
-/

/-- Backtick character (code 96). -/
def btick : Char := Char.ofNat 96

/-- Backslash character (code 92). -/
def bslash : Char := Char.ofNat 92

/-- Double-quote character (code 34). -/
def dquote : Char := Char.ofNat 34

/-- Single-quote character (code 39). -/
def squote : Char := Char.ofNat 39

/-- Opening brace character (code 123). -/
def obrace : Char := Char.ofNat 123

/-- Closing brace character (code 125). -/
def cbrace : Char := Char.ofNat 125

/-- Python whitespace: the characters matched by `\s` in `re` and stripped by
`str.strip()` (ASCII whitespace, the C1 separators, and the Unicode spaces). -/
def isPySpace (c : Char) : Bool :=
  let n := c.toNat
  (9 ≤ n ∧ n ≤ 13) || n = 28 || n = 29 || n = 30 || n = 31 || n = 32 ||
  n = 0x85 || n = 0xa0 || n = 0x1680 || (0x2000 ≤ n ∧ n ≤ 0x200a) ||
  n = 0x2028 || n = 0x2029 || n = 0x202f || n = 0x205f || n = 0x3000

/-- Whether a character list starts with three backticks. -/
def tickStart (l : List Char) : Bool :=
  match l with
  | a :: b :: c :: _ => a = btick && b = btick && c = btick
  | _ => false

/-- The characters of the word json. -/
def jsonWord : List Char := ['j', 's', 'o', 'n']

/-- What remains of the input after one match of the pattern
three backticks, optional json, then greedy whitespace: the skip performed
by one replacement of `re.sub(r"` followed by `(?:json)?\s*", "", text)`. -/
def skipFence (l : List Char) : List Char :=
  let r := l.drop 3
  let r2 := if jsonWord.isPrefixOf r then r.drop 4 else r
  r2.dropWhile isPySpace

/-- Fuel-indexed scan of `re.sub` deleting every occurrence of the fence
pattern, scanning left to right, non-overlapping, greedy within each match. -/
def fenceSubF : Nat → List Char → List Char
  | 0, l => l
  | _ + 1, [] => []
  | fuel + 1, c :: cs =>
    if tickStart (c :: cs) then fenceSubF fuel (skipFence (c :: cs))
    else c :: fenceSubF fuel cs

/-- Stage 1 of `_extract_json`: delete markdown code fences,
`re.sub(r"` three backticks `(?:json)?\s*", "", text)`. -/
def fenceSub (l : List Char) : List Char := fenceSubF l.length l

/-- Python `str.strip()`: drop leading and trailing whitespace. -/
def pyStrip (l : List Char) : List Char :=
  ((l.dropWhile isPySpace).reverse.dropWhile isPySpace).reverse

/-- Stage 2 of `_extract_json`: `re.search(r"\x7b.*\x7d", text, re.DOTALL)`,
the leftmost-then-greedy match, i.e. the slice from the first opening brace to
the last closing brace when the latter comes after the former. -/
def braceExtract (l : List Char) : Option (List Char) :=
  let afterFirst := l.dropWhile (fun c => c ≠ obrace)
  let upToLast := ((afterFirst.reverse.dropWhile (fun c => c ≠ cbrace))).reverse
  if upToLast.isEmpty then none else some upToLast

/-- Stage 3 of `_extract_json`: `re.sub` replacing each backslash-quote pair
(backslash then single quote) by a bare single quote, left to right. -/
def fixEscapes : List Char → List Char
  | [] => []
  | [c] => [c]
  | a :: b :: rest =>
    if a = bslash ∧ b = squote then squote :: fixEscapes rest
    else a :: fixEscapes (b :: rest)

/-- JSON values as produced by `json.loads`, with numerals restricted to
integers (the pipeline's payloads use no fractional numbers). -/
inductive Json where
  | null : Json
  | bool (b : Bool) : Json
  | num (n : Int) : Json
  | str (s : String) : Json
  | arr (elems : List Json) : Json
  | obj (fields : List (String × Json)) : Json

/-- JSON insignificant whitespace (space, tab, newline, carriage return). -/
def isJsonWs (c : Char) : Bool :=
  c = ' ' || c = Char.ofNat 9 || c = Char.ofNat 10 || c = Char.ofNat 13

/-- Skip JSON whitespace. -/
def skipWs (l : List Char) : List Char := l.dropWhile isJsonWs

/-- Hexadecimal digit value. -/
def hexVal (c : Char) : Option Nat :=
  if '0' ≤ c ∧ c ≤ '9' then some (c.toNat - 48)
  else if 'a' ≤ c ∧ c ≤ 'f' then some (c.toNat - 87)
  else if 'A' ≤ c ∧ c ≤ 'F' then some (c.toNat - 55)
  else none

/-- Value of four hex digits. -/
def hex4 (a b c d : Char) : Option Nat := do
  let va ← hexVal a
  let vb ← hexVal b
  let vc ← hexVal c
  let vd ← hexVal d
  pure (((va * 16 + vb) * 16 + vc) * 16 + vd)

/-- Decode one escape sequence after a backslash: the short escapes and
`\uXXXX` escapes, combining surrogate pairs; unpaired surrogates are out of
the model.  Returns the decoded character and the remaining input. -/
def parseEscHead : List Char → Option (Char × List Char)
  | [] => none
  | e :: rest2 =>
    if e = dquote then some (dquote, rest2)
    else if e = bslash then some (bslash, rest2)
    else if e = '/' then some ('/', rest2)
    else if e = 'b' then some (Char.ofNat 8, rest2)
    else if e = 'f' then some (Char.ofNat 12, rest2)
    else if e = 'n' then some (Char.ofNat 10, rest2)
    else if e = 'r' then some (Char.ofNat 13, rest2)
    else if e = 't' then some (Char.ofNat 9, rest2)
    else if e = 'u' then
      match rest2 with
      | h1 :: h2 :: h3 :: h4 :: rest3 => do
        let n ← hex4 h1 h2 h3 h4
        if 0xd800 ≤ n ∧ n ≤ 0xdbff then
          match rest3 with
          | b1 :: u1 :: g1 :: g2 :: g3 :: g4 :: rest4 =>
            if b1 = bslash ∧ u1 = 'u' then do
              let m ← hex4 g1 g2 g3 g4
              if 0xdc00 ≤ m ∧ m ≤ 0xdfff then
                some (Char.ofNat (0x10000 + (n - 0xd800) * 0x400 + (m - 0xdc00)), rest4)
              else none
            else none
          | _ => none
        else if 0xdc00 ≤ n ∧ n ≤ 0xdfff then none
        else some (Char.ofNat n, rest3)
      | _ => none
    else none

/-- Fuel-indexed scan of a JSON string body after the opening double quote;
returns the decoded characters and the rest after the closing double quote.
Raw control characters are rejected (`json.loads` strict mode).  Each step
consumes at least one input character, so fuel of the input length plus one
(as supplied by `parseStrBody`) never runs out. -/
def parseStrBodyF : Nat → List Char → Option (List Char × List Char)
  | 0, _ => none
  | _ + 1, [] => none
  | f + 1, c :: rest =>
    if c = dquote then some ([], rest)
    else if c = bslash then
      match parseEscHead rest with
      | some (d, rest2) =>
        match parseStrBodyF f rest2 with
        | some (s, r) => some (d :: s, r)
        | none => none
      | none => none
    else if c.toNat < 32 then none
    else
      match parseStrBodyF f rest with
      | some (s, r) => some (c :: s, r)
      | none => none

/-- Scan a JSON string body after the opening double quote. -/
def parseStrBody (l : List Char) : Option (List Char × List Char) :=
  parseStrBodyF (l.length + 1) l

/-- Decimal digit test. -/
def isDigitCh (c : Char) : Bool := '0' ≤ c && c ≤ '9'

/-- Parse a nonempty run of decimal digits into a natural number. -/
def parseDigits (acc : Nat) : List Char → Nat × List Char
  | [] => (acc, [])
  | c :: rest =>
    if isDigitCh c then parseDigits (acc * 10 + (c.toNat - 48)) rest
    else (acc, c :: rest)

/-- Parse a JSON integer numeral (optional minus, no leading zeros, and the
model rejects fraction or exponent parts: the pipeline payloads are
integer-valued). -/
def parseNum (l : List Char) : Option (Int × List Char) :=
  let (neg, l1) := match l with
    | c :: rest => if c = '-' then (true, rest) else (false, l)
    | [] => (false, l)
  match l1 with
  | [] => none
  | c :: rest =>
    if ¬ isDigitCh c then none
    else
      let (n, r) :=
        if c = '0' then ((0 : Nat), rest)
        else parseDigits (c.toNat - 48) rest
      match r with
      | [] => some (if neg then -(n : Int) else (n : Int), [])
      | d :: _ =>
        if d = '.' ∨ d = 'e' ∨ d = 'E' then none
        else some (if neg then -(n : Int) else (n : Int), r)

/-- Add a key-value pair to an assoc list the way a Python dict insertion
does: an existing key keeps its position and takes the new value. -/
def insertKV (k : String) (v : Json) : List (String × Json) → List (String × Json)
  | [] => [(k, v)]
  | (k2, v2) :: rest =>
    if k2 = k then (k2, v) :: rest else (k2, v2) :: insertKV k v rest

mutual
/-- Fuel-indexed JSON value parser (models `json.loads` scanning). -/
def parseValueF : Nat → List Char → Option (Json × List Char)
  | 0, _ => none
  | fuel + 1, l =>
    match skipWs l with
    | [] => none
    | c :: rest =>
      if c = dquote then do
        let (s, r) ← parseStrBody rest
        pure (Json.str (String.mk s), r)
      else if c = obrace then parseObjBody fuel rest
      else if c = '[' then parseArrBody fuel rest
      else if c = 't' then
        match rest with
        | 'r' :: 'u' :: 'e' :: r => some (Json.bool true, r)
        | _ => none
      else if c = 'f' then
        match rest with
        | 'a' :: 'l' :: 's' :: 'e' :: r => some (Json.bool false, r)
        | _ => none
      else if c = 'n' then
        match rest with
        | 'u' :: 'l' :: 'l' :: r => some (Json.null, r)
        | _ => none
      else do
        let (n, r) ← parseNum (c :: rest)
        pure (Json.num n, r)

/-- Parse an object body after the opening brace. -/
def parseObjBody : Nat → List Char → Option (Json × List Char)
  | 0, _ => none
  | fuel + 1, l =>
    match skipWs l with
    | [] => none
    | c :: rest =>
      if c = cbrace then some (Json.obj [], rest)
      else if c = dquote then do
        let (k, r1) ← parseStrBody rest
        match skipWs r1 with
        | ':' :: r2 => do
          let (v, r3) ← parseValueF fuel r2
          parseObjRest fuel (insertKV (String.mk k) v []) r3
        | _ => none
      else none

/-- Parse the continuation of an object body after one member. -/
def parseObjRest : Nat → List (String × Json) → List Char → Option (Json × List Char)
  | 0, _, _ => none
  | fuel + 1, acc, l =>
    match skipWs l with
    | c :: rest =>
      if c = cbrace then some (Json.obj acc, rest)
      else if c = ',' then
        match skipWs rest with
        | d :: rest2 =>
          if d = dquote then do
            let (k, r1) ← parseStrBody rest2
            match skipWs r1 with
            | ':' :: r2 => do
              let (v, r3) ← parseValueF fuel r2
              parseObjRest fuel (insertKV (String.mk k) v acc) r3
            | _ => none
          else none
        | [] => none
      else none
    | [] => none

/-- Parse an array body after the opening bracket. -/
def parseArrBody : Nat → List Char → Option (Json × List Char)
  | 0, _ => none
  | fuel + 1, l =>
    match skipWs l with
    | c :: rest =>
      if c = ']' then some (Json.arr [], rest)
      else do
        let (v, r1) ← parseValueF fuel l
        parseArrRest fuel [v] r1
    | [] => none

/-- Parse the continuation of an array body after one element. -/
def parseArrRest : Nat → List Json → List Char → Option (Json × List Char)
  | 0, _, _ => none
  | fuel + 1, acc, l =>
    match skipWs l with
    | c :: rest =>
      if c = ']' then some (Json.arr acc.reverse, rest)
      else if c = ',' then do
        let (v, r1) ← parseValueF fuel rest
        parseArrRest fuel (v :: acc) r1
      else none
    | [] => none
end

/-- Model of `json.loads`: parse one value and require only whitespace after. -/
def loads (l : List Char) : Option Json :=
  match parseValueF (l.length + 1) l with
  | some (v, rest) => if skipWs rest = [] then some v else none
  | none => none

/-- Lowercase hexadecimal digit (as a character), as printed by `%04x`. -/
def hexDigitCh (n : Nat) : Char :=
  if n < 10 then Char.ofNat (48 + n) else Char.ofNat (87 + n)

/-- The six-character escape backslash-u-XXXX for a 16-bit code unit. -/
def uEsc (n : Nat) : List Char :=
  [bslash, 'u', hexDigitCh (n / 4096 % 16), hexDigitCh (n / 256 % 16),
   hexDigitCh (n / 16 % 16), hexDigitCh (n % 16)]

/-- Escaping of one character the way `json.dumps` (with its default
`ensure_ascii=True`) renders string contents: short escapes for the named
control characters, backslash-u escapes (with surrogate pairs for astral
characters) for other characters outside the printable ASCII range, and all
remaining characters verbatim. -/
def escChar (c : Char) : List Char :=
  if c = dquote then [bslash, dquote]
  else if c = bslash then [bslash, bslash]
  else if c.toNat = 10 then [bslash, 'n']
  else if c.toNat = 9 then [bslash, 't']
  else if c.toNat = 13 then [bslash, 'r']
  else if c.toNat = 8 then [bslash, 'b']
  else if c.toNat = 12 then [bslash, 'f']
  else if c.toNat < 32 ∨ 126 < c.toNat then
    if c.toNat < 0x10000 then uEsc c.toNat
    else
      uEsc (0xd800 + (c.toNat - 0x10000) / 0x400) ++
      uEsc (0xdc00 + (c.toNat - 0x10000) % 0x400)
  else [c]

/-- Render a JSON string literal, double quotes included. -/
def strDump (s : String) : List Char :=
  dquote :: s.data.foldr (fun c acc => escChar c ++ acc) [dquote]

/-- Decimal digits of a natural number (fuel-indexed). -/
def natDigitsF : Nat → Nat → List Char
  | 0, _ => []
  | fuel + 1, n =>
    if n < 10 then [Char.ofNat (48 + n)]
    else natDigitsF fuel (n / 10) ++ [Char.ofNat (48 + n % 10)]

/-- Decimal rendering of an integer, as `json.dumps` prints it. -/
def intDump (n : Int) : List Char :=
  if n < 0 then '-' :: natDigitsF (n.natAbs + 1) n.natAbs
  else natDigitsF (n.natAbs + 1) n.natAbs

mutual
/-- Model of `json.dumps` with its default separators (comma-space between
items, colon-space between a key and its value). -/
def jsonDump : Json → List Char
  | .null => "null".data
  | .bool b => if b then "true".data else "false".data
  | .num n => intDump n
  | .str s => strDump s
  | .arr xs => '[' :: dumpElems xs
  | .obj kvs => obrace :: dumpMembers kvs

/-- Render array elements and the closing bracket. -/
def dumpElems : List Json → List Char
  | [] => [']']
  | [x] => jsonDump x ++ [']']
  | x :: y :: rest => jsonDump x ++ ',' :: ' ' :: dumpElems (y :: rest)

/-- Render object members and the closing brace. -/
def dumpMembers : List (String × Json) → List Char
  | [] => [cbrace]
  | [(k, v)] => strDump k ++ ':' :: ' ' :: jsonDump v ++ [cbrace]
  | (k, v) :: m :: rest =>
    strDump k ++ ':' :: ' ' :: jsonDump v ++ ',' :: ' ' :: dumpMembers (m :: rest)
end

/-- Whether an assoc list has a status key (the probe `"status" in inner`). -/
def hasStatusKey (kvs : List (String × Json)) : Bool :=
  kvs.any (fun kv => kv.1 = "status")

/-- Stage 4 of `_extract_json`: when the parsed candidate is an object with
exactly one key whose value is itself an object containing a status field,
that inner object replaces the candidate. -/
def unwrapCandidate (v : Json) : Option Json :=
  match v with
  | .obj [(_, .obj inner)] =>
    if hasStatusKey inner then some (.obj inner) else none
  | _ => none

/-- The `_extract_json` function: strip code fences and whitespace, extract
the leftmost-greedy brace block, normalize invalid backslash-quote escapes,
and, when the result parses to a single-key wrapper around an object with a
status field, replace it by the dump of the inner object; in every other
case the (possibly partially transformed) text is returned for the caller
to parse. -/
def extractJson (text : List Char) : List Char :=
  let t := pyStrip (fenceSub text)
  match braceExtract t with
  | none => t
  | some js =>
    let js2 := fixEscapes js
    match loads js2 with
    | some v =>
      match unwrapCandidate v with
      | some inner => jsonDump inner
      | none => js2
    | none => js2

/-- The structured verdict schema of the Validation agent (`ValidationOutput`
in the source): a status string constrained to APPROVED or REJECTED, a
required story string, two string-list fields defaulting to empty, and a
summary string defaulting to empty. -/
structure ValidationOutput where
  status : String
  story : String
  factual_errors : List String
  writing_issues : List String
  facts_summary : String
deriving DecidableEq, Repr

/-- First-match association-list lookup (dict key access). -/
def lookupKey (kvs : List (String × Json)) (k : String) : Option Json :=
  match kvs with
  | [] => none
  | (k2, v) :: rest => if k2 = k then some v else lookupKey rest k

/-- A JSON value read as a string, without coercion (pydantic does not
coerce JSON numbers or booleans to `str`). -/
def asStr : Json → Option String
  | .str s => some s
  | _ => none

/-- A JSON value read as a list of strings. -/
def asStrList : Json → Option (List String)
  | .arr xs => xs.mapM asStr
  | _ => none

/-- An optional list-of-strings field: absent means the empty-list default,
present requires a list of strings. -/
def optStrList (o : Option Json) : Option (List String) :=
  match o with
  | none => some []
  | some w => asStrList w

/-- An optional string field: absent means the given default, present
requires a string. -/
def optStr (dflt : String) (o : Option Json) : Option String :=
  match o with
  | none => some dflt
  | some w => asStr w

/-- Validation of an object payload against the `ValidationOutput` schema:
`status` must be a string exactly APPROVED or REJECTED (the declared
pattern), `story` a string; the three remaining fields are optional with
defaults, but when present must be well-typed.  Unknown keys are ignored. -/
def voValidateObj (kvs : List (String × Json)) : Option ValidationOutput :=
  (lookupKey kvs "status").bind fun sv =>
  (asStr sv).bind fun s =>
  if s = "APPROVED" ∨ s = "REJECTED" then
    (lookupKey kvs "story").bind fun tv =>
    (asStr tv).bind fun t =>
    (optStrList (lookupKey kvs "factual_errors")).bind fun fe =>
    (optStrList (lookupKey kvs "writing_issues")).bind fun wi =>
    (optStr "" (lookupKey kvs "facts_summary")).bind fun fs =>
    some ⟨s, t, fe, wi, fs⟩
  else none

/-- Validation of a parsed payload (`ValidationOutput(**payload)`): a
non-object payload is rejected (the keyword expansion itself fails). -/
def voValidate : Json → Option ValidationOutput
  | .obj kvs => voValidateObj kvs
  | _ => none

/-- One part of an ADK event's content; only its optional text matters to
the scan in `generate_impact_story`. -/
structure EventPart where
  text : Option String

/-- One event of the run's event stream: an optional author and optional
content parts (function-call events have no text parts). -/
structure Event where
  author : Option String
  content : Option (List EventPart)

/-- The text an event contributes to the scan: its first part carrying a
non-empty text (the loop over parts breaks at the first truthy text). -/
def eventText (e : Event) : Option String :=
  match e.content with
  | none => none
  | some parts =>
    parts.findSome? (fun p =>
      match p.text with
      | some s => if s = "" then none else some s
      | none => none)

/-- One step of the scan: an event whose first text is truthy updates the
retained final text only when its author is the orchestrator. -/
def scanStep (acc : Option String) (e : Event) : Option String :=
  match eventText e with
  | some s => if e.author = some "orchestrator" then some s else acc
  | none => acc

/-- The scan over the whole event stream performed by
`generate_impact_story`, retaining the last orchestrator-authored text. -/
def scanFinalText (events : List Event) : Option String :=
  events.foldl scanStep none

/-- The externally visible result shape of `generate_impact_story`: exactly
these seven fields. Elapsed wall-clock time is environment input and is
threaded through as an opaque integer-valued measurement. -/
structure PipelineResult where
  status : String
  story : String
  factual_errors : List String
  writing_issues : List String
  facts_summary : String
  org_id : String
  total_elapsed : Int
deriving DecidableEq, Repr

/-- The result-shaping tail of `generate_impact_story`, as a function of the
event stream: when no orchestrator text was observed the call raises; when
the repaired final text validates, its verdict fields are echoed; otherwise
the degraded ERROR result preserves the raw final text.  `excMsg` stands for
the environment-provided rendering of the parse exception interpolated into
the single factual-errors entry. -/
def generateImpactStory (orgId : String) (events : List Event) (elapsed : Int)
    (excMsg : String) : Except String PipelineResult :=
  match scanFinalText events with
  | none => .error "Pipeline completed but produced no output."
  | some finalText =>
    match (loads (extractJson finalText.data)).bind voValidate with
    | some r =>
      .ok { status := r.status, story := r.story,
            factual_errors := r.factual_errors,
            writing_issues := r.writing_issues,
            facts_summary := r.facts_summary,
            org_id := orgId, total_elapsed := elapsed }
    | none =>
      .ok { status := "ERROR", story := finalText,
            factual_errors := [String.append "Output parse failure: " excMsg],
            writing_issues := [], facts_summary := "",
            org_id := orgId, total_elapsed := elapsed }

/-- Verdict status values of the validation loop. -/
inductive VerdictStatus where
  | approved : VerdictStatus
  | rejected : VerdictStatus
deriving DecidableEq, Repr

/-- The sub-agent invocations the orchestrator can make. -/
inductive AgentCall where
  | internalData : AgentCall
  | research : AgentCall
  | synthesis : AgentCall
  | validation : AgentCall
deriving DecidableEq, Repr

/-- The rewrite bound (`_MAX_REWRITES = 2` in the source). -/
def MAX_REWRITES : Nat := 2

/-- Modelled from the orchestrator workflow instruction (STEP 4, the retry
loop): while the latest verdict is REJECTED and fewer than `MAX_REWRITES`
rewrites have been made, one more synthesis/validation pair runs.
`verdicts n` is the verdict returned by the validation call that follows the
n-th rewrite (`verdicts 0` is the verdict of the first validation call);
`remaining` is `MAX_REWRITES` minus the rewrites made so far, so the guard
`rewrites_so_far < MAX_REWRITES` is `remaining > 0`. -/
def rewriteCalls (verdicts : Nat → VerdictStatus) (rewritesSoFar remaining : Nat) :
    List AgentCall :=
  match remaining with
  | 0 => []
  | r + 1 =>
    if verdicts rewritesSoFar = .rejected then
      .synthesis :: .validation :: rewriteCalls verdicts (rewritesSoFar + 1) r
    else []

/-- Modelled from the orchestrator workflow instruction (STEP 1 to STEP 4):
the full sequence of sub-agent invocations in one pipeline run, as a
function of the verdict stream: internal data, research, a first
synthesis/validation pair, then the bounded rewrite loop. -/
def orchestratorCalls (verdicts : Nat → VerdictStatus) : List AgentCall :=
  [.internalData, .research, .synthesis, .validation] ++
    rewriteCalls verdicts 0 MAX_REWRITES

/-- Number of occurrences of one agent call in a call sequence. -/
def countCalls (c : AgentCall) : List AgentCall → Nat
  | [] => 0
  | a :: rest => (if a = c then 1 else 0) + countCalls c rest

/-- C1: for every pipeline run (every stream of validation verdicts), the
number of Synthesis invocations is between 1 and MAX_REWRITES + 1 = 3
inclusive, and the number of Validation invocations equals the number of
Synthesis invocations. -/
theorem C1_synthesis_validation_counts (verdicts : Nat → VerdictStatus) :
    1 ≤ countCalls AgentCall.synthesis (orchestratorCalls verdicts) ∧
    countCalls AgentCall.synthesis (orchestratorCalls verdicts) ≤ MAX_REWRITES + 1 ∧
    countCalls AgentCall.validation (orchestratorCalls verdicts) =
      countCalls AgentCall.synthesis (orchestratorCalls verdicts) := by
  rcases hv0 : verdicts 0 <;> rcases hv1 : verdicts 1 <;>
    simp [orchestratorCalls, rewriteCalls, MAX_REWRITES, countCalls, hv0, hv1]

/-- If no orchestrator-authored event carries any text, the scan retains
nothing. -/
theorem scanFinalText_eq_none (events : List Event)
    (h : ∀ e ∈ events, e.author = some "orchestrator" → eventText e = none) :
    scanFinalText events = none := by
  induction events with
  | nil => rfl
  | cons e es ih =>
    have hstep : scanStep none e = none := by
      unfold scanStep
      cases hev : eventText e with
      | none => rfl
      | some s =>
        by_cases ha : e.author = some "orchestrator"
        · rw [h e (by simp) ha] at hev; cases hev
        · simp [ha]
    show (e :: es).foldl scanStep none = none
    rw [List.foldl_cons, hstep]
    exact ih (fun e' he' => h e' (List.mem_cons_of_mem _ he'))

/-- C3: when the event stream contains no text authored by the orchestrator
role, `generate_impact_story` fails with the empty-result RuntimeError and
never reaches the repair/parse stage (no result is returned). -/
theorem C3_empty_result_failure (orgId : String) (events : List Event)
    (elapsed : Int) (excMsg : String)
    (h : ∀ e ∈ events, e.author = some "orchestrator" → eventText e = none) :
    generateImpactStory orgId events elapsed excMsg =
      .error "Pipeline completed but produced no output." := by
  unfold generateImpactStory
  rw [scanFinalText_eq_none events h]

/-- C3 witness: a stream holding only a research-authored text event makes
the call fail with the empty-result error. -/
theorem C3_empty_result_failure_witness :
    generateImpactStory "org" [⟨some "research_agent", some [⟨some "report"⟩]⟩] 3 "m" =
      .error "Pipeline completed but produced no output." :=
  C3_empty_result_failure "org" _ 3 "m" (by
    intro e he hau
    simp only [List.mem_singleton] at he
    subst he
    simp at hau)

/-- C4: whenever the selected final text cannot be repaired and parsed into
a verdict, the call returns successfully with status ERROR, the raw final
text as the story, exactly one factual-errors entry describing the parse
failure, no writing issues and an empty facts summary. -/
theorem C4_degraded_error_result (orgId finalText excMsg : String)
    (events : List Event) (elapsed : Int)
    (hscan : scanFinalText events = some finalText)
    (hparse : (loads (extractJson finalText.data)).bind voValidate = none) :
    generateImpactStory orgId events elapsed excMsg =
      .ok ⟨"ERROR", finalText, [String.append "Output parse failure: " excMsg],
           [], "", orgId, elapsed⟩ := by
  simp only [generateImpactStory, hscan, hparse]

/-- C4 witness: an orchestrator final text that is plain prose produces the
degraded ERROR result. -/
theorem C4_degraded_error_result_witness :
    generateImpactStory "org" [⟨some "orchestrator", some [⟨some "no json here"⟩]⟩] 2 "boom" =
      .ok ⟨"ERROR", "no json here", [String.append "Output parse failure: " "boom"],
           [], "", "org", 2⟩ :=
  C4_degraded_error_result "org" "no json here" "boom" _ 2 rfl rfl

/-- The text an event contributes when its author is the orchestrator. -/
def orchAuthoredText (e : Event) : Option String :=
  if e.author = some "orchestrator" then eventText e else none

/-- The scan from an arbitrary accumulator computes the last
orchestrator-authored text, falling back to the accumulator. -/
theorem foldl_scanStep_eq (events : List Event) (acc : Option String) :
    events.foldl scanStep acc =
      ((events.filterMap orchAuthoredText).getLast?).elim acc some := by
  induction events generalizing acc with
  | nil => rfl
  | cons e es ih =>
    rw [List.foldl_cons, ih (scanStep acc e)]
    have hstep : scanStep acc e =
        (orchAuthoredText e).elim acc some := by
      unfold scanStep orchAuthoredText
      cases hev : eventText e with
      | none => by_cases ha : e.author = some "orchestrator" <;> simp [ha]
      | some s => by_cases ha : e.author = some "orchestrator" <;> simp [ha]
    cases hoe : orchAuthoredText e with
    | none =>
      simp only [List.filterMap_cons, hoe, hstep]
      rfl
    | some s =>
      simp only [List.filterMap_cons, hoe, hstep]
      cases hes : es.filterMap orchAuthoredText with
      | nil => simp
      | cons x xs =>
        rw [List.getLast?_cons_cons]
        cases hrest : (x :: xs).getLast? with
        | none => simp [List.getLast?] at hrest
        | some t => simp

/-- C8: the text selected for parsing is exactly the last text emitted by an
orchestrator-authored event: sub-capability text and textless tool events
are never selected, and the last orchestrator text wins. -/
theorem C8_last_orchestrator_text (events : List Event) :
    scanFinalText events = (events.filterMap orchAuthoredText).getLast? := by
  rw [scanFinalText, foldl_scanStep_eq]
  cases (events.filterMap orchAuthoredText).getLast? <;> rfl

/-- Characterization of schema acceptance: `voValidate` succeeds on an
object payload exactly when status is a string APPROVED or REJECTED, story
is a string, the optional fields are well-typed when present, and the
verdict is assembled from those fields with the declared defaults. -/
theorem voValidate_eq_some_iff (kvs : List (String × Json)) (v : ValidationOutput) :
    voValidate (Json.obj kvs) = some v ↔
      ∃ s t fe wi fs,
        lookupKey kvs "status" = some (Json.str s) ∧
        (s = "APPROVED" ∨ s = "REJECTED") ∧
        lookupKey kvs "story" = some (Json.str t) ∧
        optStrList (lookupKey kvs "factual_errors") = some fe ∧
        optStrList (lookupKey kvs "writing_issues") = some wi ∧
        optStr "" (lookupKey kvs "facts_summary") = some fs ∧
        v = ⟨s, t, fe, wi, fs⟩ := by
  show voValidateObj kvs = some v ↔ _
  unfold voValidateObj
  constructor
  · intro h
    cases hsv : lookupKey kvs "status" with
    | none => rw [hsv] at h; simp at h
    | some sv =>
      rw [hsv, Option.some_bind] at h
      cases sv with
      | null => simp [asStr] at h
      | bool b => simp [asStr] at h
      | num n => simp [asStr] at h
      | arr xs => simp [asStr] at h
      | obj o => simp [asStr] at h
      | str s =>
       simp only [asStr] at h
       rw [Option.some_bind] at h
       split at h
       · next hcond =>
        cases htv : lookupKey kvs "story" with
        | none => rw [htv] at h; simp at h
        | some tv =>
          rw [htv, Option.some_bind] at h
          cases tv with
          | null => simp [asStr] at h
          | bool b => simp [asStr] at h
          | num n => simp [asStr] at h
          | arr xs => simp [asStr] at h
          | obj o => simp [asStr] at h
          | str t =>
           simp only [asStr] at h
           rw [Option.some_bind] at h
           cases hfem : optStrList (lookupKey kvs "factual_errors") with
           | none => rw [hfem] at h; simp at h
           | some fe =>
             rw [hfem, Option.some_bind] at h
             cases hwim : optStrList (lookupKey kvs "writing_issues") with
             | none => rw [hwim] at h; simp at h
             | some wi =>
               rw [hwim, Option.some_bind] at h
               cases hfsm : optStr "" (lookupKey kvs "facts_summary") with
               | none => rw [hfsm] at h; simp at h
               | some fs =>
                 rw [hfsm, Option.some_bind] at h
                 simp only [Option.some.injEq] at h
                 exact ⟨s, t, fe, wi, fs, rfl, hcond, rfl, rfl, rfl, rfl, h.symm⟩
       · exact absurd h (by simp)
  · rintro ⟨s, t, fe, wi, fs, hs, hcond, ht, hfem, hwim, hfsm, rfl⟩
    rw [hs, Option.some_bind]
    simp only [asStr]
    rw [Option.some_bind, if_pos hcond, ht, Option.some_bind]
    simp only [asStr]
    rw [Option.some_bind, hfem, Option.some_bind, hwim, Option.some_bind,
        hfsm, Option.some_bind]

/-- Every verdict the schema accepts has status APPROVED or REJECTED. -/
theorem voValidate_status (j : Json) (v : ValidationOutput)
    (h : voValidate j = some v) :
    v.status = "APPROVED" ∨ v.status = "REJECTED" := by
  cases j with
  | obj kvs =>
    obtain ⟨s, t, fe, wi, fs, _, hcond, _, _, _, _, hv⟩ :=
      (voValidate_eq_some_iff kvs v).mp h
    subst hv
    exact hcond
  | null => exact absurd h (by simp [voValidate])
  | bool b => exact absurd h (by simp [voValidate])
  | num n => exact absurd h (by simp [voValidate])
  | str s => exact absurd h (by simp [voValidate])
  | arr xs => exact absurd h (by simp [voValidate])

/-- C9: every result returned by `generate_impact_story` carries a status
among APPROVED, REJECTED and ERROR (the `PipelineResult` structure fixes the
seven-field shape), and echoes the subject identifier verbatim. -/
theorem C9_result_shape (orgId : String) (events : List Event) (elapsed : Int)
    (excMsg : String) (r : PipelineResult)
    (h : generateImpactStory orgId events elapsed excMsg = .ok r) :
    (r.status = "APPROVED" ∨ r.status = "REJECTED" ∨ r.status = "ERROR") ∧
    r.org_id = orgId := by
  cases hscan : scanFinalText events with
  | none =>
    have key : generateImpactStory orgId events elapsed excMsg =
        .error "Pipeline completed but produced no output." := by
      simp only [generateImpactStory, hscan]
    rw [key] at h
    simp at h
  | some t =>
    cases hb : (loads (extractJson t.data)).bind voValidate with
    | some vo =>
      have key : generateImpactStory orgId events elapsed excMsg =
          .ok { status := vo.status, story := vo.story,
                factual_errors := vo.factual_errors,
                writing_issues := vo.writing_issues,
                facts_summary := vo.facts_summary,
                org_id := orgId, total_elapsed := elapsed } := by
        simp only [generateImpactStory, hscan, hb]
      rw [key] at h
      simp only [Except.ok.injEq] at h
      obtain ⟨j, _, hvo⟩ := Option.bind_eq_some.mp hb
      have hst := voValidate_status j vo hvo
      subst h
      refine ⟨?_, rfl⟩
      rcases hst with hst | hst
      · exact Or.inl hst
      · exact Or.inr (Or.inl hst)
    | none =>
      have key : generateImpactStory orgId events elapsed excMsg =
          .ok { status := "ERROR", story := t,
                factual_errors := [String.append "Output parse failure: " excMsg],
                writing_issues := [], facts_summary := "",
                org_id := orgId, total_elapsed := elapsed } := by
        simp only [generateImpactStory, hscan, hb]
      rw [key] at h
      simp only [Except.ok.injEq] at h
      subst h
      exact ⟨Or.inr (Or.inr rfl), rfl⟩

/-- C9 witness: the degraded result of an unparseable final text has an
admissible status and echoes the subject identifier. -/
theorem C9_result_shape_witness :
    ((⟨"ERROR", "hi", [String.append "Output parse failure: " "m"], [], "",
       "org", 0⟩ : PipelineResult).status = "APPROVED" ∨
     (⟨"ERROR", "hi", [String.append "Output parse failure: " "m"], [], "",
       "org", 0⟩ : PipelineResult).status = "REJECTED" ∨
     (⟨"ERROR", "hi", [String.append "Output parse failure: " "m"], [], "",
       "org", 0⟩ : PipelineResult).status = "ERROR") ∧
    (⟨"ERROR", "hi", [String.append "Output parse failure: " "m"], [], "",
      "org", 0⟩ : PipelineResult).org_id = "org" :=
  C9_result_shape "org" [⟨some "orchestrator", some [⟨some "hi"⟩]⟩] 0 "m" _ rfl

/-- The final orchestrator text of the C2 counterexample run: a verdict
whose status is APPROVED while factual-errors is non-empty. -/
def c2FinalText : String :=
  "\x7b\x22status\x22: \x22APPROVED\x22, \x22story\x22: \x22s\x22, \x22factual_errors\x22: [\x22e\x22]\x7d"

/-- C2 counterexample: the pipeline returns a verdict with status APPROVED
and a non-empty factual-errors list, so status APPROVED does not imply that
both error lists are empty; nothing in the schema enforces the equivalence. -/
theorem C2_counterexample :
    generateImpactStory "org" [⟨some "orchestrator", some [⟨some c2FinalText⟩]⟩] 5 "m" =
      .ok ⟨"APPROVED", "s", ["e"], [], "", "org", 5⟩ ∧
    (["e"] : List String) ≠ [] := ⟨rfl, by decide⟩

/-- C2 amended: the schema only enforces that a produced verdict's status is
APPROVED or REJECTED; the relation between the status and the error lists is
instructed to the validation model but not enforced by the code. -/
theorem C2_amended_status_only (j : Json) (v : ValidationOutput)
    (h : voValidate j = some v) :
    v.status = "APPROVED" ∨ v.status = "REJECTED" :=
  voValidate_status j v h

/-- C2 amended witness: a concrete rejected verdict is accepted by the
schema and its status is among the two allowed values. -/
theorem C2_amended_status_only_witness :
    (⟨"REJECTED", "t", [], [], ""⟩ : ValidationOutput).status = "APPROVED" ∨
    (⟨"REJECTED", "t", [], [], ""⟩ : ValidationOutput).status = "REJECTED" :=
  C2_amended_status_only
    (Json.obj [("status", Json.str "REJECTED"), ("story", Json.str "t")])
    ⟨"REJECTED", "t", [], [], ""⟩ rfl

/-- An object payload supplying a valid status and story but an ill-typed
optional field. -/
def c10kvs : List (String × Json) :=
  [("status", Json.str "APPROVED"), ("story", Json.str "s"),
   ("factual_errors", Json.num 5)]

/-- C10 counterexample: a payload with status APPROVED and a string story is
nevertheless rejected by the schema because its present factual-errors field
is not a list of strings, refuting the claimed if-and-only-if. -/
theorem C10_counterexample :
    lookupKey c10kvs "status" = some (Json.str "APPROVED") ∧
    lookupKey c10kvs "story" = some (Json.str "s") ∧
    voValidate (Json.obj c10kvs) = none := ⟨rfl, rfl, rfl⟩

/-- C10 amended: a payload is accepted as a Validation Verdict if and only
if it supplies a status string exactly APPROVED or REJECTED, a string story,
and each optional field, when present, is well-typed (`optStrList` and
`optStr` are total on absent fields); moreover absent optional fields
default to the empty list, the empty list, and the empty string. -/
theorem C10_amended_acceptance (kvs : List (String × Json)) :
    ((voValidate (Json.obj kvs)).isSome = true ↔
      ((∃ s, lookupKey kvs "status" = some (Json.str s) ∧
          (s = "APPROVED" ∨ s = "REJECTED")) ∧
       (∃ t, lookupKey kvs "story" = some (Json.str t)) ∧
       (optStrList (lookupKey kvs "factual_errors")).isSome = true ∧
       (optStrList (lookupKey kvs "writing_issues")).isSome = true ∧
       (optStr "" (lookupKey kvs "facts_summary")).isSome = true)) ∧
    (∀ v, voValidate (Json.obj kvs) = some v →
      (lookupKey kvs "factual_errors" = none → v.factual_errors = []) ∧
      (lookupKey kvs "writing_issues" = none → v.writing_issues = []) ∧
      (lookupKey kvs "facts_summary" = none → v.facts_summary = "")) := by
  constructor
  · constructor
    · intro hsome
      obtain ⟨v, hv⟩ := Option.isSome_iff_exists.mp hsome
      obtain ⟨s, t, fe, wi, fs, hs, hcond, ht, hfem, hwim, hfsm, rfl⟩ :=
        (voValidate_eq_some_iff kvs v).mp hv
      exact ⟨⟨s, hs, hcond⟩, ⟨t, ht⟩, by rw [hfem]; rfl, by rw [hwim]; rfl,
             by rw [hfsm]; rfl⟩
    · rintro ⟨⟨s, hs, hcond⟩, ⟨t, ht⟩, hfe, hwi, hfs⟩
      obtain ⟨fe, hfem⟩ := Option.isSome_iff_exists.mp hfe
      obtain ⟨wi, hwim⟩ := Option.isSome_iff_exists.mp hwi
      obtain ⟨fs, hfsm⟩ := Option.isSome_iff_exists.mp hfs
      have hv : voValidate (Json.obj kvs) = some ⟨s, t, fe, wi, fs⟩ :=
        (voValidate_eq_some_iff kvs _).mpr
          ⟨s, t, fe, wi, fs, hs, hcond, ht, hfem, hwim, hfsm, rfl⟩
      rw [hv]; rfl
  · intro v hv
    obtain ⟨s, t, fe, wi, fs, hs, hcond, ht, hfem, hwim, hfsm, rfl⟩ :=
      (voValidate_eq_some_iff kvs v).mp hv
    refine ⟨?_, ?_, ?_⟩ <;> intro hnone
    · rw [hnone] at hfem
      simp only [optStrList, Option.some.injEq] at hfem
      exact hfem.symm
    · rw [hnone] at hwim
      simp only [optStrList, Option.some.injEq] at hwim
      exact hwim.symm
    · rw [hnone] at hfsm
      simp only [optStr, Option.some.injEq] at hfsm
      exact hfsm.symm

/-- C10 amended witness: a minimal payload with only the two required fields
is accepted, with the optional fields defaulting. -/
theorem C10_amended_acceptance_witness :
    (voValidate (Json.obj [("status", Json.str "REJECTED"),
      ("story", Json.str "t")])).isSome = true :=
  (C10_amended_acceptance _).1.mpr
    ⟨⟨"REJECTED", rfl, Or.inr rfl⟩, ⟨"t", rfl⟩, rfl, rfl, rfl⟩

